import Mathlib

/-!
Verification development for the flash-loop web-automation agent.

The definitions below are shallow embeddings of the TypeScript sources:
`src/core/smart-waiter.ts` (SmartWaiter and the current Executor),
`src/core/observer.ts` (semantic-ID Observer), `src/core/context-manager.ts`,
`src/core/error-translator.ts` and `src/core/loop.ts`.  JavaScript strings are
modelled by Lean `String` (all inputs of interest are ASCII, where
`charCodeAt` and `Char.toNat` agree), JavaScript 32-bit integer arithmetic by
`Nat` with explicit `% 2 ^ 32`, nullable values by `Option`, and thrown
exceptions by `Except String`.
-/

namespace FlashLoop

/-- ASCII lowering of one character, modelling `toLowerCase` on the ASCII
inputs the agent handles. -/
def lowerChar (c : Char) : Char :=
  if 65 ≤ c.toNat ∧ c.toNat ≤ 90 then Char.ofNat (c.toNat + 32) else c

/-- ASCII lowering of a string (model of `String.prototype.toLowerCase`). -/
def strLower (s : String) : String :=
  String.mk (s.data.map lowerChar)

/-- JavaScript `String.prototype.includes`, modelled as infix containment of
the character lists. -/
def strIncludes (hay needle : String) : Bool :=
  decide (needle.data <:+: hay.data)

/-- Membership form of `strIncludes`. -/
theorem strIncludes_iff (hay needle : String) :
    strIncludes hay needle = true ↔ needle.data <:+: hay.data := by
  simp [strIncludes]

/-- Containment in a string survives prepending more text. -/
theorem strIncludes_append_right (a b s : String) (h : strIncludes b s = true) :
    strIncludes (a ++ b) s = true := by
  rw [strIncludes_iff] at h ⊢
  rcases h with ⟨l, r, hb⟩
  exact ⟨a.data ++ l, r, by simp [← hb, String.data_append]⟩

/-- JavaScript `String.prototype.startsWith`. -/
def strStartsWith (s pre : String) : Bool :=
  decide (pre.data <+: s.data)

/-- Membership form of `List.contains` on strings. -/
theorem contains_eq_true_iff_mem {l : List String} {a : String} :
    l.contains a = true ↔ a ∈ l := by
  simp [List.contains_eq_any_beq, List.any_eq_true]

/-! ## Stability Waiter: noisy-mutation classification (claim C6)

Embedding of `areAllMutationsNoisy` from `SmartWaiter.wait`
(src/core/smart-waiter.ts).  A `MutTarget` records exactly the data of a
mutation record's target element that the function inspects: its tag name,
the string form of its class list, its `id`, and the `aria-busy` /
`data-loading` attributes (`none` models `getAttribute` returning null). -/

/-- Target element of one `MutationRecord`, as inspected by the waiter. -/
structure MutTarget where
  tagName : String
  className : String
  id : String
  ariaBusy : Option String
  dataLoading : Option String
deriving DecidableEq, Repr

/-- Tag names excluded as media/vector noise. -/
def noisyTags : List String := ["video", "audio", "svg", "path", "canvas"]

/-- Substrings of the class list that mark loading indicators. -/
def noisyClassMarkers : List String := ["spinner", "loader", "loading", "progress", "busy"]

/-- Substrings of the element id that mark loading indicators (note: the
source checks one marker fewer on ids than on classes). -/
def noisyIdMarkers : List String := ["spinner", "loader", "loading", "progress"]

/-- Embedding of the per-record body of `areAllMutationsNoisy`. -/
def isNoisyTarget (t : MutTarget) : Bool :=
  noisyTags.contains (strLower t.tagName)
    || noisyClassMarkers.any (fun s => strIncludes (strLower t.className) s)
    || (t.id != "" && noisyIdMarkers.any (fun s => strIncludes (strLower t.id) s))
    || t.ariaBusy == some "true"
    || t.dataLoading.isSome

/-- Embedding of `areAllMutationsNoisy` (src/core/smart-waiter.ts): a batch is
noisy iff every record's target is noisy. -/
def areAllMutationsNoisy (ms : List MutTarget) : Bool :=
  ms.all isNoisyTarget

/-- Noisiness of one target as claim C6 words it: the same five marker
substrings apply to the class and to the id. -/
def specNoisyTarget (t : MutTarget) : Prop :=
  strLower t.tagName ∈ noisyTags
    ∨ (∃ s ∈ noisyClassMarkers, strIncludes (strLower t.className) s = true)
    ∨ (∃ s ∈ noisyClassMarkers, strIncludes (strLower t.id) s = true)
    ∨ t.ariaBusy = some "true"
    ∨ t.dataLoading.isSome = true

instance (t : MutTarget) : Decidable (specNoisyTarget t) := by
  unfold specNoisyTarget; infer_instance

/-- Noisiness of one target as amended: the id markers omit `busy`, and the
id check applies to a nonempty id. -/
def amendedNoisyTarget (t : MutTarget) : Prop :=
  strLower t.tagName ∈ noisyTags
    ∨ (∃ s ∈ noisyClassMarkers, strIncludes (strLower t.className) s = true)
    ∨ (t.id ≠ "" ∧ ∃ s ∈ noisyIdMarkers, strIncludes (strLower t.id) s = true)
    ∨ t.ariaBusy = some "true"
    ∨ t.dataLoading.isSome = true

/-- A batch consisting of one record whose target has id "busy" and no other
noise marker. -/
def busyIdTarget : MutTarget :=
  { tagName := "div", className := "", id := "busy", ariaBusy := none, dataLoading := none }

/-- C6 counterexample: the batch `[busyIdTarget]` satisfies the claim's
noisiness condition on every record (its id contains "busy"), yet
`areAllMutationsNoisy` classifies it as not noisy, because the source omits
"busy" from the id markers. -/
theorem C6_counterexample :
    (∀ t ∈ [busyIdTarget], specNoisyTarget t) ∧
      areAllMutationsNoisy [busyIdTarget] = false := by
  constructor
  · intro t ht
    simp only [List.mem_singleton] at ht
    subst ht
    decide
  · decide

/-- Pointwise agreement of the source function with the amended predicate. -/
theorem isNoisyTarget_iff_amended (t : MutTarget) :
    isNoisyTarget t = true ↔ amendedNoisyTarget t := by
  unfold isNoisyTarget amendedNoisyTarget
  simp only [Bool.or_eq_true, Bool.and_eq_true, contains_eq_true_iff_mem,
    List.any_eq_true, bne_iff_ne, beq_iff_eq, ne_eq, or_assoc]

/-- C6 (amended): a mutation batch is classified noisy iff every record
targets a media element, or an element whose class contains one of
spinner/loader/loading/progress/busy, or whose nonempty id contains one of
spinner/loader/loading/progress, or an element with aria-busy="true" or any
data-loading attribute. -/
theorem C6_amended_noisy_iff (ms : List MutTarget) :
    areAllMutationsNoisy ms = true ↔ ∀ t ∈ ms, amendedNoisyTarget t := by
  unfold areAllMutationsNoisy
  rw [List.all_eq_true]
  constructor
  · intro h t ht
    exact (isNoisyTarget_iff_amended t).mp (h t ht)
  · intro h t ht
    exact (isNoisyTarget_iff_amended t).mpr (h t ht)

/-! ## Stability Waiter: the wait state machine (claim C5)

Discrete-event embedding of `SmartWaiter.wait` (src/core/smart-waiter.ts).
A run is described by whether `document.body` exists at entry and by the
time-ordered list of mutation batches delivered to the `MutationObserver`
(each batch carries its arrival time in ms since `start` and whether
`areAllMutationsNoisy` held for it).  The idle timer is armed at time 0 and
re-armed at each non-noisy batch; it fires `duration` ms after arming.  A
batch arriving at the exact instant the timer fires is modelled as the timer
firing first. -/

/-- One mutation batch delivered to the observer callback. -/
structure MutationBatch where
  time : Nat
  noisy : Bool
deriving DecidableEq, Repr

namespace SmartWaiter

/-- Walk of the observer callback: `armTime` is the arming time of the
pending idle timer.  A noisy batch is ignored; a non-noisy batch after the
timer would have fired leaves the already-produced `achieved:true` result;
a non-noisy batch past `timeout` resolves `achieved:false`; otherwise the
timer is re-armed.  Exhausting the batches lets the pending timer fire. -/
def waitRun (duration timeout : Nat) : Nat → List MutationBatch → Bool × Nat
  | armTime, [] => (true, armTime + duration)
  | armTime, b :: rest =>
    if b.noisy then waitRun duration timeout armTime rest
    else if armTime + duration ≤ b.time then (true, armTime + duration)
    else if timeout < b.time then (false, b.time)
    else waitRun duration timeout b.time rest

/-- Embedding of `SmartWaiter.wait`: a missing `document.body` resolves
`{achieved:false, duration:0}` immediately; otherwise the mutation-observer
walk decides the outcome.  The returned pair is (achieved, duration). -/
def wait (bodyPresent : Bool) (duration timeout : Nat)
    (batches : List MutationBatch) : Bool × Nat :=
  if bodyPresent then waitRun duration timeout 0 batches else (false, 0)

/-- Eight non-noisy batches spaced 250 ms apart, the last at 2000 ms. -/
def keepAliveBatches : List MutationBatch :=
  [⟨250, false⟩, ⟨500, false⟩, ⟨750, false⟩, ⟨1000, false⟩,
   ⟨1250, false⟩, ⟨1500, false⟩, ⟨1750, false⟩, ⟨2000, false⟩]

end SmartWaiter

/-- C5 counterexample: with the default parameters (300 ms stability,
2000 ms max), (a) a missing `document.body` resolves `{achieved:false}` at
elapsed 0, which is not ≥ maxTimeout, so `achieved:false` is not resolved
"exactly when elapsed ≥ maxTimeout"; and (b) non-noisy mutations every
250 ms up to exactly 2000 ms yield `{achieved:true}` at elapsed 2300 ms,
which is not below maxTimeout, refuting the claim's bound on the
`achieved:true` case. -/
theorem C5_counterexample :
    SmartWaiter.wait false 300 2000 [] = (false, 0) ∧ ¬ (2000 ≤ 0) ∧
      SmartWaiter.wait true 300 2000 SmartWaiter.keepAliveBatches = (true, 2300) ∧
      ¬ (2300 < 2000) := by
  refine ⟨rfl, by omega, ?_, by omega⟩
  decide

/-- Invariant walk for the false outcome: a false result names the arrival
time of a non-noisy batch strictly past `timeout`. -/
theorem waitRun_false (duration timeout : Nat) (batches : List MutationBatch) :
    ∀ armTime d, SmartWaiter.waitRun duration timeout armTime batches = (false, d) →
      timeout < d ∧ ∃ b ∈ batches, b.noisy = false ∧ b.time = d := by
  induction batches with
  | nil =>
    intro armTime d h
    simp [SmartWaiter.waitRun] at h
  | cons b rest ih =>
    intro armTime d h
    unfold SmartWaiter.waitRun at h
    by_cases hn : b.noisy
    · rw [if_pos hn] at h
      obtain ⟨ht, bb, hbb, hprop⟩ := ih armTime d h
      exact ⟨ht, bb, List.mem_cons_of_mem _ hbb, hprop⟩
    · rw [if_neg hn] at h
      by_cases hfire : armTime + duration ≤ b.time
      · rw [if_pos hfire] at h
        simp at h
      · rw [if_neg hfire] at h
        by_cases hto : timeout < b.time
        · rw [if_pos hto] at h
          simp only [Prod.mk.injEq] at h
          have hd : b.time = d := h.2
          refine ⟨by omega, b, List.mem_cons_self _ _, by simpa using hn, hd⟩
        · rw [if_neg hto] at h
          obtain ⟨ht, bb, hbb, hprop⟩ := ih b.time d h
          exact ⟨ht, bb, List.mem_cons_of_mem _ hbb, hprop⟩

/-- Invariant walk for the true outcome: a true result fires the idle timer a
full `duration` after the last re-arming, which happened at time 0 or at a
non-noisy batch that arrived within `timeout`. -/
theorem waitRun_true (duration timeout : Nat) (batches : List MutationBatch) :
    ∀ armTime d, armTime ≤ timeout →
      SmartWaiter.waitRun duration timeout armTime batches = (true, d) →
      ∃ t, d = t + duration ∧ t ≤ timeout ∧
        (t = armTime ∨ ∃ b ∈ batches, b.noisy = false ∧ b.time = t) := by
  induction batches with
  | nil =>
    intro armTime d harm h
    simp only [SmartWaiter.waitRun, Prod.mk.injEq] at h
    exact ⟨armTime, h.2.symm, harm, Or.inl rfl⟩
  | cons b rest ih =>
    intro armTime d harm h
    unfold SmartWaiter.waitRun at h
    by_cases hn : b.noisy
    · rw [if_pos hn] at h
      obtain ⟨t, hd, ht, hsrc⟩ := ih armTime d harm h
      refine ⟨t, hd, ht, ?_⟩
      rcases hsrc with h1 | ⟨bb, hbb, hprop⟩
      · exact Or.inl h1
      · exact Or.inr ⟨bb, List.mem_cons_of_mem _ hbb, hprop⟩
    · rw [if_neg hn] at h
      by_cases hfire : armTime + duration ≤ b.time
      · rw [if_pos hfire] at h
        simp only [Prod.mk.injEq] at h
        exact ⟨armTime, h.2.symm, harm, Or.inl rfl⟩
      · rw [if_neg hfire] at h
        by_cases hto : timeout < b.time
        · rw [if_pos hto] at h
          simp at h
        · rw [if_neg hto] at h
          obtain ⟨t, hd, ht, hsrc⟩ := ih b.time d (by omega) h
          refine ⟨t, hd, ht, ?_⟩
          rcases hsrc with h1 | ⟨bb, hbb, hprop⟩
          · exact Or.inr ⟨b, List.mem_cons_self _ _, by simpa using hn, h1.symm⟩
          · exact Or.inr ⟨bb, List.mem_cons_of_mem _ hbb, hprop⟩

/-- C5 (amended): `SmartWaiter.wait` resolves `{achieved:false, duration}`
exactly in two situations — `document.body` is absent at entry (duration 0),
or a non-noisy mutation arrives at an elapsed time strictly greater than
`maxTimeout` and `duration` is that arrival time; it resolves
`{achieved:true, duration}` only when `duration` is a full
`stabilityDuration` after the last non-noisy mutation (or after the start,
if none occurred), every re-arming mutation arriving at elapsed ≤
`maxTimeout`; hence `achieved:true` may resolve at elapsed up to
`maxTimeout + stabilityDuration`. -/
theorem C5_amended_wait_outcomes (bodyPresent : Bool) (duration timeout : Nat)
    (batches : List MutationBatch) (a : Bool) (d : Nat)
    (h : SmartWaiter.wait bodyPresent duration timeout batches = (a, d)) :
    (a = false → (bodyPresent = false ∧ d = 0) ∨
      (timeout < d ∧ ∃ b ∈ batches, b.noisy = false ∧ b.time = d)) ∧
    (a = true → bodyPresent = true ∧ d ≤ timeout + duration ∧
      ∃ t, d = t + duration ∧ t ≤ timeout ∧
        (t = 0 ∨ ∃ b ∈ batches, b.noisy = false ∧ b.time = t)) := by
  unfold SmartWaiter.wait at h
  by_cases hb : bodyPresent
  · rw [if_pos hb] at h
    constructor
    · intro ha
      subst ha
      exact Or.inr (waitRun_false duration timeout batches 0 d h)
    · intro ha
      subst ha
      obtain ⟨t, hd, ht, hsrc⟩ := waitRun_true duration timeout batches 0 d (by omega) h
      exact ⟨hb, by omega, t, hd, ht, hsrc⟩
  · rw [if_neg hb] at h
    simp only [Prod.mk.injEq] at h
    constructor
    · intro _
      exact Or.inl ⟨by simpa using hb, h.2.symm⟩
    · intro ha
      rw [← h.1] at ha
      simp at ha

/-- Witness for C5 (amended) at a concrete run: one non-noisy batch at
100 ms with the defaults resolves `{achieved:true, 400}`. -/
theorem C5_amended_witness :
    (SmartWaiter.wait true 300 2000 [⟨100, false⟩] = (true, 400)) ∧
      ((true : Bool) = false → (true = false ∧ 400 = 0) ∨
        (2000 < 400 ∧ ∃ b ∈ [(⟨100, false⟩ : MutationBatch)], b.noisy = false ∧ b.time = 400)) ∧
      ((true : Bool) = true → (true : Bool) = true ∧ 400 ≤ 2000 + 300 ∧
        ∃ t, 400 = t + 300 ∧ t ≤ 2000 ∧
          (t = 0 ∨ ∃ b ∈ [(⟨100, false⟩ : MutationBatch)], b.noisy = false ∧ b.time = t)) := by
  have hrun : SmartWaiter.wait true 300 2000 [⟨100, false⟩] = (true, 400) := by decide
  have hmain := C5_amended_wait_outcomes true 300 2000 [⟨100, false⟩] true 400 hrun
  exact ⟨hrun, hmain.1, hmain.2⟩

/-! ## Executor: robust selector synthesis (claim C1)

Embedding of `Executor.getRobustLocator` (src/core/smart-waiter.ts).  The
descriptor slice the function reads is the frame selector chain, the
selector candidates and the xpath.  Live-page behaviour of a candidate
locator — its `count()`, its `isVisible()`, or an exception — is an oracle
`CandKind → CandOutcome` indexed by the candidate kind (each kind occurs at
most once per descriptor).  String literals in emitted code are written with
the JavaScript quote as the escape `\x27` and braces as `\x7b`/`\x7d`. -/

/-- Role selector candidate (role plus accessible name). -/
structure RoleName where
  role : String
  name : String
deriving DecidableEq, Repr

/-- Candidate selectors of an element (src/types.ts `SelectorCandidates`). -/
structure SelectorCandidates where
  testId : Option String := none
  role : Option RoleName := none
  placeholder : Option String := none
  text : Option String := none
  label : Option String := none
  altText : Option String := none
  title : Option String := none
deriving DecidableEq, Repr

/-- Slice of `ElementContainer` read by `getRobustLocator`. -/
structure LocatorTarget where
  frameSelectorChain : List String
  selectors : SelectorCandidates
  xpath : String
deriving DecidableEq, Repr

/-- JavaScript truthiness of a nullable string. -/
def optTruthy : Option String → Bool
  | some s => s != ""
  | none => false

/-- Truthiness of `s.role && s.role.name`. -/
def roleTruthy : Option RoleName → Bool
  | some r => r.name != ""
  | none => false

/-- Model of `.replace(/'/g, "\\'")`: escape every single quote. -/
def escapeQ (s : String) : String :=
  String.mk (s.data.flatMap (fun c => if c = '\x27' then ['\\', '\x27'] else [c]))

/-- Concatenation of a list of strings. -/
def strConcat (l : List String) : String :=
  l.foldr (fun a b => a ++ b) ""

/-- Model of `String.prototype.slice(0, n)` on ASCII text. -/
def strTake (s : String) (n : Nat) : String :=
  String.mk (s.data.take n)

namespace Executor

/-- Kind of a selector candidate, in the fixed priority order. -/
inductive CandKind
  | testId | role | placeholder | text | xpath
deriving DecidableEq, Repr

/-- Live-page outcome of probing one candidate locator. -/
inductive CandOutcome
  | throwEx
  | result (count : Nat) (visible : Bool)
deriving DecidableEq, Repr

/-- Embedding of the acceptance test `(await loc.count()) === 1 && (await
loc.isVisible())`, with an exception moving to the next candidate. -/
def accepted : CandOutcome → Bool
  | .throwEx => false
  | .result c v => c == 1 && v

/-- Embedding of `buildContextCode`: fold the frame chain into nested
`frameLocator` calls starting from `page`. -/
def buildContextCode (chain : List String) : String :=
  chain.foldl (fun code sel => code ++ ".frameLocator(\x27" ++ escapeQ sel ++ "\x27)") "page"

/-- Code fragment of the role candidate; note the role identifier itself is
interpolated unescaped in the source. -/
def roleCode (r : RoleName) : String :=
  ".getByRole(\x27" ++ r.role ++ "\x27, \x7b name: \x27" ++ escapeQ r.name
    ++ "\x27, exact: true \x7d)"

/-- Embedding of the candidate construction inside `getRobustLocator`: each
candidate is pushed only when its datum is truthy, in the fixed order, with
the xpath candidate always last. -/
def candidates (t : LocatorTarget) : List (CandKind × String) :=
  (if optTruthy t.selectors.testId then
      [(CandKind.testId, ".getByTestId(\x27" ++ escapeQ (t.selectors.testId.getD "") ++ "\x27)")]
    else []) ++
  ((if roleTruthy t.selectors.role then
      [(CandKind.role, roleCode (t.selectors.role.getD ⟨"", ""⟩))]
    else []) ++
  ((if optTruthy t.selectors.placeholder then
      [(CandKind.placeholder,
        ".getByPlaceholder(\x27" ++ escapeQ (t.selectors.placeholder.getD "") ++ "\x27)")]
    else []) ++
  ((if optTruthy t.selectors.text then
      [(CandKind.text,
        ".getByText(\x27" ++ escapeQ (t.selectors.text.getD "") ++ "\x27, \x7b exact: true \x7d)")]
    else []) ++
  [(CandKind.xpath, ".locator(\x27" ++ escapeQ t.xpath ++ "\x27)")])))

/-- Message of the error thrown when every candidate fails. -/
def failedRobustSelectorMsg : String :=
  "Failed to generate a robust selector for this element. It might be hidden or dynamic."

/-- Embedding of `Executor.getRobustLocator`: the first accepted candidate
wins and yields the context code followed by its fragment; if none is
accepted the failed-robust-selector error is thrown. -/
def getRobustLocator (t : LocatorTarget) (env : CandKind → CandOutcome) :
    Except String String :=
  match (candidates t).find? (fun c => accepted (env c.1)) with
  | some c => .ok (buildContextCode t.frameSelectorChain ++ c.2)
  | none => .error failedRobustSelectorMsg

/-- Acceptance as the amended claim words it: exactly one match and visible. -/
def specAccepted : CandOutcome → Bool
  | .result 1 true => true
  | _ => false

/-- Frame chaining as the amended claim words it: `page` followed by one
quote-escaped `frameLocator` call per chain entry. -/
def specFrameCode (chain : List String) : String :=
  "page" ++ strConcat (chain.map (fun sel => ".frameLocator(\x27" ++ escapeQ sel ++ "\x27)"))

/-- Selector synthesis as the amended claim words it: try
getByTestId, getByRole(role, name, exact), getByPlaceholder,
getByText(exact), locator(xpath) in this order, each only if its datum is
present, accept the first uniquely-matching visible candidate, emit its
literal script expression (descriptor strings quote-escaped, the role
identifier interpolated as-is, the xpath fragment without any warning
comment), and fail with the failed-robust-selector error otherwise. -/
def specSynthesize (t : LocatorTarget) (env : CandKind → CandOutcome) :
    Except String String :=
  if optTruthy t.selectors.testId && specAccepted (env CandKind.testId) then
    .ok (specFrameCode t.frameSelectorChain
      ++ ".getByTestId(\x27" ++ escapeQ (t.selectors.testId.getD "") ++ "\x27)")
  else if roleTruthy t.selectors.role && specAccepted (env CandKind.role) then
    .ok (specFrameCode t.frameSelectorChain
      ++ ".getByRole(\x27" ++ (t.selectors.role.getD ⟨"", ""⟩).role ++ "\x27, \x7b name: \x27"
      ++ escapeQ (t.selectors.role.getD ⟨"", ""⟩).name ++ "\x27, exact: true \x7d)")
  else if optTruthy t.selectors.placeholder && specAccepted (env CandKind.placeholder) then
    .ok (specFrameCode t.frameSelectorChain
      ++ ".getByPlaceholder(\x27" ++ escapeQ (t.selectors.placeholder.getD "") ++ "\x27)")
  else if optTruthy t.selectors.text && specAccepted (env CandKind.text) then
    .ok (specFrameCode t.frameSelectorChain
      ++ ".getByText(\x27" ++ escapeQ (t.selectors.text.getD "") ++ "\x27, \x7b exact: true \x7d)")
  else if specAccepted (env CandKind.xpath) then
    .ok (specFrameCode t.frameSelectorChain ++ ".locator(\x27" ++ escapeQ t.xpath ++ "\x27)")
  else
    .error failedRobustSelectorMsg

/-- Source acceptance agrees with the claim's acceptance condition. -/
theorem accepted_eq_specAccepted (o : CandOutcome) : accepted o = specAccepted o := by
  cases o with
  | throwEx => rfl
  | result c v =>
    rcases v with _ | _ <;> rcases c with _ | _ | c <;> rfl

/-- Source frame chaining agrees with the claim's frame chaining. -/
theorem buildContextCode_eq_specFrameCode (chain : List String) :
    buildContextCode chain = specFrameCode chain := by
  suffices h : ∀ acc, chain.foldl
      (fun code sel => code ++ ".frameLocator(\x27" ++ escapeQ sel ++ "\x27)") acc =
      acc ++ strConcat (chain.map (fun sel => ".frameLocator(\x27" ++ escapeQ sel ++ "\x27)")) by
    exact h "page"
  induction chain with
  | nil =>
    intro acc
    show acc = acc ++ ""
    simp
  | cons s rest ih =>
    intro acc
    rw [List.foldl_cons, ih]
    show (acc ++ ".frameLocator(\x27" ++ escapeQ s ++ "\x27)") ++ _ =
      acc ++ ((".frameLocator(\x27" ++ escapeQ s ++ "\x27)") ++ _)
    simp [strConcat, String.append_assoc]

/-- Finding over a gated singleton prefix. -/
theorem find?_gated {α : Type} (p : α → Bool) (g : Bool) (a : α) (l : List α) :
    List.find? p ((if g then [a] else []) ++ l) =
      if g && p a then some a else List.find? p l := by
  cases g
  · simp
  · by_cases hp : p a
    · simp [List.find?_cons, hp]
    · simp [List.find?_cons, hp]

/-- Finding over a final singleton. -/
theorem find?_singleton {α : Type} (p : α → Bool) (a : α) :
    List.find? p [a] = if p a then some a else none := by
  by_cases hp : p a <;> simp [List.find?_cons, hp]

end Executor

/-- C1 (amended): `getRobustLocator` behaves exactly as the amended claim
words it — candidates in the fixed order getByTestId, getByRole(name,
exact), getByPlaceholder, getByText(exact), locator(xpath) last, each built
only when its datum is present, chained after the frame selector chain,
accepted iff count() == 1 and isVisible() with exceptions skipping to the
next candidate; the emitted fragment is the literal expression of the
accepted candidate with descriptor-derived string literals quote-escaped
except the role identifier, the xpath fragment carries no warning comment,
and with no accepted candidate the failed-robust-selector error is thrown. -/
theorem C1_amended_robust_locator (t : LocatorTarget) (env : Executor.CandKind → Executor.CandOutcome) :
    Executor.getRobustLocator t env = Executor.specSynthesize t env := by
  unfold Executor.getRobustLocator Executor.specSynthesize Executor.candidates
  rw [Executor.find?_gated, Executor.find?_gated, Executor.find?_gated, Executor.find?_gated,
    Executor.find?_singleton]
  simp only [Executor.accepted_eq_specAccepted, Executor.buildContextCode_eq_specFrameCode,
    Executor.roleCode]
  split_ifs <;> simp [String.append_assoc]

/-- Witness for C1 (amended): a descriptor carrying only an xpath, probed
with an always-accepting page, synthesizes the plain xpath locator. -/
theorem C1_amended_witness :
    Executor.getRobustLocator
        { frameSelectorChain := [], selectors := {}, xpath := "/html/body/button[1]" }
        (fun _ => Executor.CandOutcome.result 1 true) =
      Executor.specSynthesize
        { frameSelectorChain := [], selectors := {}, xpath := "/html/body/button[1]" }
        (fun _ => Executor.CandOutcome.result 1 true) :=
  C1_amended_robust_locator
    { frameSelectorChain := [], selectors := {}, xpath := "/html/body/button[1]" }
    (fun _ => Executor.CandOutcome.result 1 true)

/-- C1 counterexample: for a descriptor with only an xpath, on a page where
the xpath candidate uniquely matches and is visible, the emitted code
fragment is the bare `locator` expression and contains no warning comment
(no "Warning", no block comment opener, no line comment), contradicting the
claim that the xpath fragment carries a warning comment. -/
theorem C1_counterexample :
    Executor.getRobustLocator
        { frameSelectorChain := [], selectors := {}, xpath := "/html/body/button[1]" }
        (fun _ => Executor.CandOutcome.result 1 true) =
      Except.ok "page.locator(\x27/html/body/button[1]\x27)" ∧
    strIncludes "page.locator(\x27/html/body/button[1]\x27)" "Warning" = false ∧
    strIncludes "page.locator(\x27/html/body/button[1]\x27)" "/*" = false ∧
    strIncludes "page.locator(\x27/html/body/button[1]\x27)" "//" = false := by
  refine ⟨?_, by decide, by decide, by decide⟩
  rfl

/-! ## Error translation and Executor error handling (claim C2)

Embedding of `ErrorTranslator.translate` (src/core/error-translator.ts), of
the catch clause of `Executor.execute` (src/core/smart-waiter.ts), of the
element-action validation that throws for an unknown target id, and of the
failure handling in the main loop (src/core/loop.ts).  A thrown `Error`
object is a `JsError`; `String(error)` prepends "Error: " to its message,
while the translator reads `error.message` directly. -/

/-- Thrown JavaScript `Error` object. -/
structure JsError where
  message : String
deriving DecidableEq, Repr

/-- Model of `String(error)` for an `Error` object. -/
def stringOfError (e : JsError) : String := "Error: " ++ e.message

namespace ErrorTranslator

/-- Advice for timeout errors. -/
def timeoutAdvice : String :=
  "Timeout Error: The element could not be found or interacted with within the time limit.\nAdvice:\n- Check if the \x27targetId\x27 corresponds to the correct element.\n- The element might be hidden or inside a collapsed section. Try \x27scroll\x27 to make it visible.\n- If the page is loading, use \x27wait_for_element\x27 or check if a spinner is visible."

/-- Advice for intercepted interactions. -/
def interceptedAdvice : String :=
  "Interaction Failed: The click was intercepted by another element (likely a modal, overlay, or sticky header).\nAdvice:\n- Look for a modal dialog or popup and close it first.\n- If it\x27s a cookie banner, try to close or accept it.\n- If the element is covered by a header, try \x27scroll\x27 to move it to a clear area."

/-- Advice for stale or detached elements. -/
def staleAdvice : String :=
  "Stale Element Error: The page structure changed while trying to interact.\nAdvice:\n- The element might have been removed or re-rendered.\n- Stop and re-observe the current state. The ID might have changed or the element is gone."

/-- Advice for hidden elements. -/
def visibilityAdvice : String :=
  "Visibility Error: The target element is present in the DOM but not visible to the user.\nAdvice:\n- It might be `display: none` or `visibility: hidden`.\n- If it\x27s inside a dropdown or menu, click the parent trigger first.\n- Try scrolling to the element."

/-- Advice for navigation failures. -/
def navigationAdvice : String :=
  "Navigation Error: Failed to load the URL.\nAdvice:\n- Check the URL format.\n- The site might be down or blocking the request."

/-- Embedding of `ErrorTranslator.translate` on the error message: first
matching category wins; unknown messages are truncated to 200 characters. -/
def translate (msg : String) : String :=
  if strIncludes msg "Timeout" || strIncludes msg "waiting for selector" then timeoutAdvice
  else if strIncludes msg "intercepted" || strIncludes msg "obscures" then interceptedAdvice
  else if strIncludes msg "detached" || strIncludes msg "stale"
      || strIncludes msg "target closed" then staleAdvice
  else if strIncludes msg "not visible" || strIncludes msg "hidden" then visibilityAdvice
  else if strIncludes msg "Navigation failed" || strIncludes msg "net::" then navigationAdvice
  else
    "Unknown Execution Error: "
      ++ (if 200 < msg.length then strTake msg 200 ++ "..." else msg)
      ++ "\nAdvice: Try a different approach or verify the target element."

end ErrorTranslator

/-- Result record of `Executor.execute` (src/types.ts `ExecutionResult`). -/
structure ExecutionResult where
  success : Bool
  generatedCode : Option String := none
  error : Option String := none
  userGuidance : Option String := none
  retryable : Bool
deriving DecidableEq, Repr

namespace Executor

/-- Message substrings that make an execution error fatal (non-retryable). -/
def fatalMarkers : List String :=
  ["requires a target", "requires targetId", "requires a URL", "Unsupported action",
   "not found in memory", "not found", "Target ID is missing"]

/-- Embedding of the fatality test in the catch clause of `execute`. -/
def isFatal (msg : String) : Bool :=
  fatalMarkers.any (fun s => strIncludes msg s)

/-- Embedding of the try/catch structure of `Executor.execute`: a successful
dispatch returns its result unchanged; a thrown error is translated and
returned as a failure whose retryability is the negated fatality of the
stringified error. -/
def executeGuard (dispatch : Except JsError ExecutionResult) : ExecutionResult :=
  match dispatch with
  | .ok r => r
  | .error e =>
    let translated := ErrorTranslator.translate e.message
    { success := false, generatedCode := none, error := some translated,
      userGuidance := some translated, retryable := !(isFatal (stringOfError e)) }

/-- Embedding of the element-action validation in `execute`: a missing
`targetId` and a `targetId` absent from the current catalog both throw; a
present one continues with the rest of the action. -/
def elementActionDispatch (targetId : Option String) (catalogIds : List String)
    (rest : Except JsError ExecutionResult) : Except JsError ExecutionResult :=
  match targetId with
  | none => .error ⟨"Target ID is missing for this action."⟩
  | some tid =>
    if catalogIds.contains tid then rest
    else .error ⟨"Element with ID \"" ++ tid ++ "\" not found in memory."⟩

end Executor

/-- State the main loop threads through one step's result handling. -/
structure LoopState where
  emitted : List String
  history : List String
  lastError : Option String
deriving DecidableEq, Repr

/-- JavaScript `a || b` on nullable strings. -/
def jsOrOpt (a b : Option String) : Option String :=
  match a with
  | some s => if s = "" then b else some s
  | none => b

/-- Embedding of the result handling in `FlashLoop.start` (src/core/loop.ts):
on success append a SUCCESS history line, emit non-empty generated code and
clear the last error; on failure append an ERROR line, record the guidance
as last error, and signal loop exit exactly when the result is not retryable
and the run is not interactive.  The returned flag is the loop break. -/
def processResult (interactive : Bool) (actionType : String) (r : ExecutionResult)
    (st : LoopState) : LoopState × Bool :=
  if r.success then
    ({ emitted := st.emitted ++
        (match r.generatedCode with
          | some c => if c ≠ "" then [c] else []
          | none => []),
       history := st.history ++ ["SUCCESS: " ++ actionType],
       lastError := none }, false)
  else
    ({ emitted := st.emitted,
       history := st.history ++ ["ERROR: " ++ actionType ++ " failed. " ++ (r.error.getD "undefined")],
       lastError := jsOrOpt r.userGuidance r.error },
     !r.retryable && !interactive)

/-- C2: `Executor.execute` never propagates an exception — every thrown
error yields `{success:false, error:translated, userGuidance:translated,
retryable}`, where retryable is false exactly when the stringified error
contains one of the seven fatal substrings; a plan whose targetId is not in
the current catalog throws a "not found in memory" error and so yields
success=false with retryable=false; and on a non-retryable failure the
non-interactive loop breaks without appending code for that step. -/
theorem C2_execute_error_contract :
    (∀ e : JsError, Executor.executeGuard (Except.error e) =
      { success := false, generatedCode := none,
        error := some (ErrorTranslator.translate e.message),
        userGuidance := some (ErrorTranslator.translate e.message),
        retryable := !(Executor.isFatal (stringOfError e)) }) ∧
    (∀ msg : String, Executor.isFatal msg = true ↔
      ∃ s ∈ Executor.fatalMarkers, strIncludes msg s = true) ∧
    (∀ (tid : String) (catalogIds : List String) (rest : Except JsError ExecutionResult),
      catalogIds.contains tid = false →
        Executor.elementActionDispatch (some tid) catalogIds rest =
          Except.error ⟨"Element with ID \"" ++ tid ++ "\" not found in memory."⟩ ∧
        (Executor.executeGuard (Executor.elementActionDispatch (some tid) catalogIds rest)).success
          = false ∧
        (Executor.executeGuard (Executor.elementActionDispatch (some tid) catalogIds rest)).retryable
          = false) ∧
    (∀ (actionType : String) (r : ExecutionResult) (st : LoopState),
      r.success = false → r.retryable = false →
        (processResult false actionType r st).2 = true ∧
        (processResult false actionType r st).1.emitted = st.emitted) := by
  refine ⟨fun e => rfl, ?_, ?_, ?_⟩
  · intro msg
    simp [Executor.isFatal, List.any_eq_true]
  · intro tid catalogIds rest hmem
    have hdisp : Executor.elementActionDispatch (some tid) catalogIds rest =
        Except.error ⟨"Element with ID \"" ++ tid ++ "\" not found in memory."⟩ := by
      show (if catalogIds.contains tid = true then rest
          else Except.error ⟨"Element with ID \"" ++ tid ++ "\" not found in memory."⟩) =
        Except.error ⟨"Element with ID \"" ++ tid ++ "\" not found in memory."⟩
      rw [hmem]
      simp
    refine ⟨hdisp, by rw [hdisp]; rfl, ?_⟩
    rw [hdisp]
    show (!(Executor.isFatal _)) = false
    have hfatal : Executor.isFatal
        (stringOfError ⟨"Element with ID \"" ++ tid ++ "\" not found in memory."⟩) = true := by
      have h1 : strIncludes "\" not found in memory." "not found in memory" = true := by decide
      have h2 := strIncludes_append_right ("Element with ID \"" ++ tid)
        "\" not found in memory." "not found in memory" h1
      have h3 := strIncludes_append_right "Error: "
        ("Element with ID \"" ++ tid ++ "\" not found in memory.") "not found in memory" h2
      unfold Executor.isFatal
      rw [List.any_eq_true]
      exact ⟨"not found in memory", by decide, h3⟩
    rw [hfatal]
    rfl
  · intro actionType r st hsucc hretry
    unfold processResult
    rw [hsucc, hretry]
    exact ⟨rfl, rfl⟩

/-- Witness for C2 at concrete inputs: an unknown target id "btn-xxxx-1"
against a catalog containing only "button-47f85db-1" yields a fatal,
non-retryable failure, and the non-interactive loop breaks without emitting
code. -/
theorem C2_execute_error_contract_witness :
    (Executor.executeGuard (Executor.elementActionDispatch (some "btn-xxxx-1")
        ["button-47f85db-1"] (Except.ok ⟨true, none, none, none, true⟩))).success = false ∧
    (Executor.executeGuard (Executor.elementActionDispatch (some "btn-xxxx-1")
        ["button-47f85db-1"] (Except.ok ⟨true, none, none, none, true⟩))).retryable = false ∧
    (processResult false "click"
        (Executor.executeGuard (Executor.elementActionDispatch (some "btn-xxxx-1")
          ["button-47f85db-1"] (Except.ok ⟨true, none, none, none, true⟩)))
        ⟨[], [], none⟩).2 = true ∧
    (processResult false "click"
        (Executor.executeGuard (Executor.elementActionDispatch (some "btn-xxxx-1")
          ["button-47f85db-1"] (Except.ok ⟨true, none, none, none, true⟩)))
        ⟨[], [], none⟩).1.emitted = [] := by
  have hmem : (["button-47f85db-1"] : List String).contains "btn-xxxx-1" = false := by decide
  have hmain := C2_execute_error_contract
  obtain ⟨-, -, hlookup, hloop⟩ := hmain
  obtain ⟨hdisp, hsucc, hretry⟩ := hlookup "btn-xxxx-1" ["button-47f85db-1"]
    (Except.ok ⟨true, none, none, none, true⟩) hmem
  obtain ⟨hbreak, hemit⟩ := hloop "click"
    (Executor.executeGuard (Executor.elementActionDispatch (some "btn-xxxx-1")
      ["button-47f85db-1"] (Except.ok ⟨true, none, none, none, true⟩)))
    ⟨[], [], none⟩ hsucc hretry
  exact ⟨hsucc, hretry, hbreak, hemit⟩

/-! ## Context Manager: dialog handling (claim C9)

Embedding of `ContextManager.handleDialog` (src/core/context-manager.ts).
Its observable state is the pending-dialog slot and whether the safety-net
timer is armed; the Playwright `dialog.accept()` / `dialog.dismiss()` calls
are effects on an opaque dialog handle and may throw (parameter
`dialogThrows`).  The try/finally in the source nulls the slot even on a
throw, and the timer is cleared before the try block. -/

/-- Pending dialog stored by the context manager. -/
structure PendingDialog where
  dtype : String
  message : String
  handleId : Nat
deriving DecidableEq, Repr

/-- Dialog-related observable state of the context manager. -/
structure DialogState where
  pendingDialog : Option PendingDialog
  timerArmed : Bool
deriving DecidableEq, Repr

/-- Effect performed on the stored dialog handle. -/
inductive DialogEffect
  | acceptDialog (handleId : Nat)
  | dismissDialog (handleId : Nat)
deriving DecidableEq, Repr

namespace ContextManager

/-- Embedding of `handleDialog`: with no pending dialog it throws and changes
nothing; otherwise it clears the timer, attempts accept or dismiss on the
stored handle, and — succeed or throw — nulls the pending-dialog slot. -/
def handleDialog (st : DialogState) (doAccept : Bool) (dialogThrows : Bool) :
    Except String Unit × DialogState × List DialogEffect :=
  match st.pendingDialog with
  | none => (.error "No active dialog to handle.", st, [])
  | some d =>
    let cleared : DialogState := { pendingDialog := none, timerArmed := false }
    let eff := if doAccept then DialogEffect.acceptDialog d.handleId
      else DialogEffect.dismissDialog d.handleId
    if dialogThrows then (.error "dialog action threw", cleared, [eff])
    else (.ok (), cleared, [eff])

end ContextManager

/-- C9: handling a pending dialog clears the safety-net timer and nulls the
pending-dialog slot even if accepting or dismissing throws, and any
subsequent `handleDialog` call fails with the no-pending-dialog error while
leaving the manager's state unchanged and performing no dialog effect. -/
theorem C9_handle_dialog_idempotent (st : DialogState) (doAccept dialogThrows : Bool)
    (d : PendingDialog) (hpending : st.pendingDialog = some d) :
    (ContextManager.handleDialog st doAccept dialogThrows).2.1.pendingDialog = none ∧
    (ContextManager.handleDialog st doAccept dialogThrows).2.1.timerArmed = false ∧
    (∀ doAccept2 dialogThrows2 : Bool,
      ContextManager.handleDialog (ContextManager.handleDialog st doAccept dialogThrows).2.1
          doAccept2 dialogThrows2 =
        (Except.error "No active dialog to handle.",
          (ContextManager.handleDialog st doAccept dialogThrows).2.1, [])) := by
  by_cases ht : dialogThrows <;>
    simp [ContextManager.handleDialog, hpending, ht]

/-- Witness for C9 at a concrete state: a pending confirm dialog accepted
without a throw. -/
theorem C9_handle_dialog_idempotent_witness :
    ({ pendingDialog := some ⟨"confirm", "Are you sure?", 5⟩, timerArmed := true }
        : DialogState).pendingDialog = some ⟨"confirm", "Are you sure?", 5⟩ ∧
    (ContextManager.handleDialog
        { pendingDialog := some ⟨"confirm", "Are you sure?", 5⟩, timerArmed := true }
        true false).2.1.pendingDialog = none ∧
    (ContextManager.handleDialog
        { pendingDialog := some ⟨"confirm", "Are you sure?", 5⟩, timerArmed := true }
        true false).2.1.timerArmed = false := by
  have h := C9_handle_dialog_idempotent
    { pendingDialog := some ⟨"confirm", "Are you sure?", 5⟩, timerArmed := true }
    true false ⟨"confirm", "Are you sure?", 5⟩ rfl
  exact ⟨rfl, h.1, h.2.1⟩

/-! ## Main loop: step bound and cleanup (claim C10)

Embedding of the loop skeleton of `FlashLoop.start` (src/core/loop.ts):
`let step = 0; const MAX_STEPS = options.maxSteps || 20; while (step <
MAX_STEPS) { step++; ... }` followed by `generator.finish()`, closing the
browser when the loop owns one, and returning the emitter output.  The body
of one iteration is abstracted by a signal oracle: the observed/planned/
executed step either continues or breaks the loop. -/

/-- Outcome of one loop iteration. -/
inductive StepSignal
  | continueLoop
  | breakLoop
deriving DecidableEq, Repr

/-- Model of `options.maxSteps || 20` (JavaScript falsy default). -/
def maxStepsOrDefault : Option Nat → Nat
  | some n => if n = 0 then 20 else n
  | none => 20

/-- Fuelled while-loop: `step` is the source's step counter, incremented at
the top of each iteration; the fuel starts at `maxSteps` and dominates the
remaining iterations. -/
def loopGo (maxSteps : Nat) (body : Nat → StepSignal) : Nat → Nat → Nat
  | 0, step => step
  | fuel + 1, step =>
    if step < maxSteps then
      match body (step + 1) with
      | .breakLoop => step + 1
      | .continueLoop => loopGo maxSteps body fuel (step + 1)
    else step

/-- Number of iterations (final step-counter value) of the main loop. -/
def loopSteps (maxSteps : Nat) (body : Nat → StepSignal) : Nat :=
  loopGo maxSteps body maxSteps 0

/-- Observable outcome of `FlashLoop.start`. -/
structure StartOutcome where
  steps : Nat
  finalized : Bool
  browserClosed : Bool
deriving DecidableEq, Repr

/-- Embedding of `FlashLoop.start` around the main loop: run the bounded
loop, finalize the emitter, close the browser when owned. -/
def startRun (maxSteps? : Option Nat) (ownsBrowser : Bool) (body : Nat → StepSignal) :
    StartOutcome :=
  { steps := loopSteps (maxStepsOrDefault maxSteps?) body,
    finalized := true,
    browserClosed := ownsBrowser }

/-- The loop counter never exceeds the bound. -/
theorem loopGo_le (maxSteps : Nat) (body : Nat → StepSignal) :
    ∀ fuel step, step ≤ maxSteps → loopGo maxSteps body fuel step ≤ maxSteps := by
  intro fuel
  induction fuel with
  | zero => intro step h; exact h
  | succ fuel ih =>
    intro step h
    unfold loopGo
    by_cases hlt : step < maxSteps
    · rw [if_pos hlt]
      cases hb : body (step + 1) with
      | breakLoop =>
        show step + 1 ≤ maxSteps
        omega
      | continueLoop =>
        show loopGo maxSteps body fuel (step + 1) ≤ maxSteps
        exact ih (step + 1) (by omega)
    · rw [if_neg hlt]
      exact h

/-- C10: the main loop executes at most `maxSteps` iterations — the step
counter never exceeds `maxSteps`, which defaults to 20 when not provided —
and once the loop exits the emitter is finalized, the browser is closed when
the loop owns one, and the emitter output is returned. -/
theorem C10_loop_bounded (maxSteps? : Option Nat) (ownsBrowser : Bool)
    (body : Nat → StepSignal) :
    (startRun maxSteps? ownsBrowser body).steps ≤ maxStepsOrDefault maxSteps? ∧
    (maxSteps? = none → maxStepsOrDefault maxSteps? = 20) ∧
    (startRun maxSteps? ownsBrowser body).finalized = true ∧
    (ownsBrowser = true → (startRun maxSteps? ownsBrowser body).browserClosed = true) := by
  refine ⟨loopGo_le _ body _ 0 (by omega), ?_, rfl, fun h => h⟩
  intro h
  rw [h]
  rfl

/-- Witness for C10 at concrete inputs: no `maxSteps` option, an owned
browser, every step continuing — the loop stops after exactly 20 steps. -/
theorem C10_loop_bounded_witness :
    (startRun none true (fun _ => StepSignal.continueLoop)).steps ≤ 20 ∧
    maxStepsOrDefault none = 20 ∧
    (startRun none true (fun _ => StepSignal.continueLoop)).finalized = true ∧
    (startRun none true (fun _ => StepSignal.continueLoop)).browserClosed = true ∧
    (startRun none true (fun _ => StepSignal.continueLoop)).steps = 20 := by
  have h := C10_loop_bounded none true (fun _ => StepSignal.continueLoop)
  refine ⟨h.1, h.2.1 rfl, h.2.2.1, h.2.2.2 rfl, by decide⟩

/-! ## Observer: semantic hashing and ID assignment (claims C3, C7)

Embedding of `Observer.generateSemanticHash` and the ID-assignment loop of
`Observer.captureState` (src/core/observer.ts, semantic-ID variant).  The
in-page scan yields a list of `ScanItem`s — extracted metadata plus an
opaque element-handle token — in document order across frames;
`captureState` hashes each item, disambiguates equal hashes with an
occurrence counter keyed on the hash string, and stores the container under
`<tag>-<hash>-<occurrence>`. -/

/-- Metadata extracted in the page context for one interactable element. -/
structure ElementMetadataInfo where
  xpath : String
  tagName : String
  inputType : Option String
  description : String
  isScrollable : Bool
  isInViewport : Bool
  selectors : SelectorCandidates
  attributes : List (String × String)
  textContent : String
deriving DecidableEq, Repr

/-- One scanned element: its metadata and its element-handle token. -/
structure ScanItem where
  metadata : ElementMetadataInfo
  handle : Nat
deriving DecidableEq, Repr

namespace Observer

/-- Lowercase hexadecimal digit characters. -/
def hexDigits : List Char :=
  "0123456789abcdef".data

/-- Digit character for one digit value (base up to 16). -/
def hexDigit (n : Nat) : Char :=
  hexDigits.getD n 'f'

/-- Fuelled digit extraction, most significant digit first; the fuel always
dominates the value, so it never runs out. -/
def digitsGo (base : Nat) : Nat → Nat → List Char → List Char
  | 0, _, acc => acc
  | fuel + 1, n, acc =>
    if n = 0 then acc else digitsGo base fuel (n / base) (hexDigit (n % base) :: acc)

/-- Positional representation of a natural number, model of JavaScript
`Number.prototype.toString(base)` for nonnegative integers: no leading
zeros, lowercase digits. -/
def natDigits (base n : Nat) : List Char :=
  if n = 0 then ['0'] else digitsGo base n n []

/-- Hexadecimal rendering (`toString(16)`). -/
def hexRep (n : Nat) : List Char := natDigits 16 n

/-- Decimal rendering (template interpolation of a count). -/
def decRep (n : Nat) : List Char := natDigits 10 n

/-- Embedding of the 32-bit FNV-1a style mix in `generateSemanticHash`:
start from 0x811c9dc5, xor in each char code, multiply by 0x01000193
modulo 2^32 (`Math.imul` followed by the final `>>> 0`). -/
def fnv32 (s : String) : Nat :=
  s.data.foldl (fun h c => ((h ^^^ c.toNat) * 16777619) % 4294967296) 2166136261

/-- Attribute lookup with the `|| ''` default used by the hash parts. -/
def attrGet (attrs : List (String × String)) (k : String) : String :=
  ((attrs.find? (fun p => p.1 == k)).map Prod.snd).getD ""

/-- Model of `.replace(/\d+/g, '')`: remove every decimal digit. -/
def stripDigits (s : String) : String :=
  String.mk (s.data.filter (fun c => !c.isDigit))

/-- Model of `Array.prototype.join('|')`. -/
def joinBar : List String → String
  | [] => ""
  | [s] => s
  | s :: rest => s ++ "|" ++ joinBar rest

/-- The hash input parts of `generateSemanticHash`, in source order: tag,
test id, role, input type, placeholder, name (never populated by
`checkElement`, hence looked up with default ""), and the first 20
characters of the digit-stripped text. -/
def semanticParts (meta : ElementMetadataInfo) : List String :=
  [meta.tagName, meta.selectors.testId.getD "", attrGet meta.attributes "role",
   attrGet meta.attributes "type", meta.selectors.placeholder.getD "",
   attrGet meta.attributes "name", strTake (stripDigits meta.textContent) 20]

/-- Embedding of `Observer.generateSemanticHash`: FNV-mix the joined parts,
render the unsigned 32-bit result in lowercase hex, keep at most 8 chars. -/
def generateSemanticHash (meta : ElementMetadataInfo) : String :=
  String.mk ((hexRep (fnv32 (joinBar (semanticParts meta)))).take 8)

/-- Occurrence lookup in the hash counter (`hashCounter.get(rawHash) || 0`). -/
def cnt (counter : List (String × Nat)) (h : String) : Nat :=
  ((counter.find? (fun p => p.1 == h)).map Prod.snd).getD 0

/-- Assembled semantic ID `tag-hash-occurrence`. -/
def mkId (tag hash : String) (count : Nat) : String :=
  tag ++ "-" ++ hash ++ "-" ++ String.mk (decRep count)

/-- Embedding of the per-item ID assignment loop of `captureState`,
threading the hash counter. -/
def assignIdsAux (counter : List (String × Nat)) : List ScanItem → List (String × ScanItem)
  | [] => []
  | it :: rest =>
    (mkId it.metadata.tagName (generateSemanticHash it.metadata)
        (cnt counter (generateSemanticHash it.metadata) + 1), it) ::
      assignIdsAux ((generateSemanticHash it.metadata,
        cnt counter (generateSemanticHash it.metadata) + 1) :: counter) rest

/-- IDs and containers assigned by one observation, in scan order. -/
def assignIds (items : List ScanItem) : List (String × ScanItem) :=
  assignIdsAux [] items

/-- Number of items in `l` whose semantic hash is `h`. -/
def countSameH (l : List ScanItem) (h : String) : Nat :=
  l.countP (fun it => generateSemanticHash it.metadata == h)

/-- Every digit character is a lowercase hex digit. -/
theorem hexDigit_mem (n : Nat) : hexDigit n ∈ hexDigits := by
  unfold hexDigit
  rcases Nat.lt_or_ge n hexDigits.length with h | h
  · rw [List.getD_eq_getElem?_getD, List.getElem?_eq_getElem h]
    exact List.get_mem _ n h
  · rw [List.getD_eq_getElem?_getD, List.getElem?_eq_none h]
    decide

/-- Characters accumulated by `digitsGo` stay lowercase hex. -/
theorem digitsGo_chars (base : Nat) :
    ∀ fuel n acc, (∀ c ∈ acc, c ∈ hexDigits) →
      ∀ c ∈ digitsGo base fuel n acc, c ∈ hexDigits := by
  intro fuel
  induction fuel with
  | zero => intro n acc hacc c hc; exact hacc c hc
  | succ fuel ih =>
    intro n acc hacc c hc
    unfold digitsGo at hc
    by_cases hn : n = 0
    · rw [if_pos hn] at hc; exact hacc c hc
    · rw [if_neg hn] at hc
      refine ih (n / base) _ ?_ c hc
      intro d hd
      rcases List.mem_cons.mp hd with h1 | h1
      · subst h1; exact hexDigit_mem _
      · exact hacc d h1

/-- All characters of a positional rendering are lowercase hex digits. -/
theorem natDigits_chars (base n : Nat) : ∀ c ∈ natDigits base n, c ∈ hexDigits := by
  unfold natDigits
  by_cases hn : n = 0
  · rw [if_pos hn]
    intro c hc
    simp only [List.mem_singleton] at hc
    subst hc
    decide
  · rw [if_neg hn]
    exact digitsGo_chars base n n [] (by simp)

/-- Lowercase hex digits are never a dash. -/
theorem mem_hexDigits_ne_dash {c : Char} (h : c ∈ hexDigits) : c ≠ '-' := by
  intro heq
  subst heq
  exact absurd h (by decide)

/-- Decimal value of a digit character. -/
def digitVal (c : Char) : Nat := c.toNat - 48

/-- Decimal value of a most-significant-first digit list. -/
def digitsVal (l : List Char) : Nat :=
  l.foldl (fun a c => a * 10 + digitVal c) 0

/-- Folding digits from a nonzero accumulator. -/
theorem digitsVal_from (l : List Char) :
    ∀ a, l.foldl (fun x c => x * 10 + digitVal c) a = a * 10 ^ l.length + digitsVal l := by
  induction l with
  | nil => intro a; simp [digitsVal]
  | cons c l ih =>
    intro a
    have hcons : digitsVal (c :: l) = digitVal c * 10 ^ l.length + digitsVal l := by
      show l.foldl _ (0 * 10 + digitVal c) = _
      rw [ih]
      ring
    show l.foldl _ (a * 10 + digitVal c) = a * 10 ^ (l.length + 1) + digitsVal (c :: l)
    rw [ih, hcons, pow_succ]
    ring

/-- The digit character of a value below ten decodes back to it. -/
theorem digitVal_hexDigit {m : Nat} (h : m < 10) : digitVal (hexDigit m) = m := by
  interval_cases m <;> decide

/-- Valuation of the fuelled digit extraction. -/
theorem digitsGo_val :
    ∀ fuel n acc, n ≤ fuel →
      digitsVal (digitsGo 10 fuel n acc) = n * 10 ^ acc.length + digitsVal acc := by
  intro fuel
  induction fuel with
  | zero =>
    intro n acc h
    have hn : n = 0 := by omega
    subst hn
    simp [digitsGo]
  | succ fuel ih =>
    intro n acc h
    unfold digitsGo
    by_cases hn : n = 0
    · rw [if_pos hn]; subst hn; simp
    · rw [if_neg hn]
      have hdiv : n / 10 ≤ fuel := by
        have hlt : n / 10 < n := Nat.div_lt_self (Nat.pos_of_ne_zero hn) (by norm_num)
        omega
      rw [ih (n / 10) _ hdiv]
      have hdv : digitVal (hexDigit (n % 10)) = n % 10 :=
        digitVal_hexDigit (Nat.mod_lt _ (by omega))
      have hdval : digitsVal (hexDigit (n % 10) :: acc)
          = (n % 10) * 10 ^ acc.length + digitsVal acc := by
        show acc.foldl _ (0 * 10 + digitVal (hexDigit (n % 10))) = _
        rw [digitsVal_from, hdv]
        ring
      have hlen : (hexDigit (n % 10) :: acc).length = acc.length + 1 := rfl
      rw [hlen, hdval, pow_succ]
      have hmod := Nat.div_add_mod n 10
      have hring : n / 10 * (10 ^ acc.length * 10) + ((n % 10) * 10 ^ acc.length + digitsVal acc)
          = (10 * (n / 10) + n % 10) * 10 ^ acc.length + digitsVal acc := by ring
      rw [hring, hmod]

/-- Round trip: the decimal rendering evaluates back to the number. -/
theorem decRep_val (n : Nat) : digitsVal (decRep n) = n := by
  unfold decRep natDigits
  by_cases hn : n = 0
  · rw [if_pos hn]; subst hn; decide
  · rw [if_neg hn]
    have := digitsGo_val n n [] (Nat.le_refl n)
    simpa [digitsVal] using this

/-- Decimal renderings of distinct numbers differ. -/
theorem decRep_inj {m n : Nat} (h : decRep m = decRep n) : m = n := by
  have := congrArg digitsVal h
  rwa [decRep_val, decRep_val] at this

/-- `takeWhile` of not-dash stops exactly at the first dash. -/
theorem takeWhile_append_dash (l r : List Char) (hl : ∀ c ∈ l, c ≠ '-') :
    (l ++ '-' :: r).takeWhile (fun c => c != '-') = l := by
  induction l with
  | nil => simp [List.takeWhile_cons]
  | cons a l ih =>
    have ha : (a != '-') = true := by
      have := hl a (List.mem_cons_self a l)
      simpa [bne_iff_ne] using this
    simp only [List.cons_append, List.takeWhile_cons, ha, if_true]
    rw [ih (fun c hc => hl c (List.mem_cons_of_mem _ hc))]

/-- `dropWhile` of not-dash lands exactly on the first dash. -/
theorem dropWhile_append_dash (l r : List Char) (hl : ∀ c ∈ l, c ≠ '-') :
    (l ++ '-' :: r).dropWhile (fun c => c != '-') = '-' :: r := by
  induction l with
  | nil => simp [List.dropWhile_cons]
  | cons a l ih =>
    have ha : (a != '-') = true := by
      have := hl a (List.mem_cons_self a l)
      simpa [bne_iff_ne] using this
    simp only [List.cons_append, List.dropWhile_cons, ha, if_true]
    exact ih (fun c hc => hl c (List.mem_cons_of_mem _ hc))

/-- A string of the shape `xs-ys` with `ys` dash-free splits uniquely at the
last dash. -/
theorem split_last_dash {xs ys as bs : List Char}
    (hys : ∀ c ∈ ys, c ≠ '-') (hbs : ∀ c ∈ bs, c ≠ '-')
    (heq : xs ++ '-' :: ys = as ++ '-' :: bs) : xs = as ∧ ys = bs := by
  have hrev : ys.reverse ++ '-' :: xs.reverse = bs.reverse ++ '-' :: as.reverse := by
    have h0 := congrArg List.reverse heq
    simpa [List.reverse_append, List.append_assoc] using h0
  have htk := congrArg (List.takeWhile (fun c => c != '-')) hrev
  rw [takeWhile_append_dash _ _ (fun c hc => hys c (List.mem_reverse.mp hc)),
    takeWhile_append_dash _ _ (fun c hc => hbs c (List.mem_reverse.mp hc))] at htk
  have hdp := congrArg (List.dropWhile (fun c => c != '-')) hrev
  rw [dropWhile_append_dash _ _ (fun c hc => hys c (List.mem_reverse.mp hc)),
    dropWhile_append_dash _ _ (fun c hc => hbs c (List.mem_reverse.mp hc))] at hdp
  have hy : ys = bs := by
    have := congrArg List.reverse htk
    simpa using this
  have hx : xs = as := by
    have hx0 : xs.reverse = as.reverse := by
      have := List.cons.injEq '-' xs.reverse '-' as.reverse ▸ hdp
      exact (List.cons.inj hdp).2
    have := congrArg List.reverse hx0
    simpa using this
  exact ⟨hx, hy⟩

/-- Component injectivity of the assembled ID: equal IDs with dash-free hash
strings force equal tags, equal hash strings, and equal occurrence counts. -/
theorem mkId_inj {t₁ t₂ h₁ h₂ : String} {c₁ c₂ : Nat}
    (hh₁ : ∀ c ∈ h₁.data, c ≠ '-') (hh₂ : ∀ c ∈ h₂.data, c ≠ '-')
    (heq : mkId t₁ h₁ c₁ = mkId t₂ h₂ c₂) : t₁ = t₂ ∧ h₁ = h₂ ∧ c₁ = c₂ := by
  have hdash : ("-" : String).data = ['-'] := rfl
  have hdata := congrArg String.data heq
  simp only [mkId, String.data_append, hdash, List.append_assoc] at hdata
  have hdata' : (t₁.data ++ '-' :: h₁.data) ++ '-' :: (decRep c₁)
      = (t₂.data ++ '-' :: h₂.data) ++ '-' :: (decRep c₂) := by
    simpa [List.append_assoc] using hdata
  have hcrep : ∀ n, ∀ c ∈ decRep n, c ≠ '-' :=
    fun n c hc => mem_hexDigits_ne_dash (natDigits_chars 10 n c hc)
  obtain ⟨hfront, hc⟩ := split_last_dash (hcrep c₁) (hcrep c₂) hdata'
  obtain ⟨ht, hh⟩ := split_last_dash hh₁ hh₂ hfront
  exact ⟨String.ext ht, String.ext hh, decRep_inj hc⟩

/-- Occurrence lookup after pushing one bucket. -/
theorem cnt_cons (h₀ : String) (c₀ : Nat) (counter : List (String × Nat)) (h : String) :
    cnt ((h₀, c₀) :: counter) h = if h = h₀ then c₀ else cnt counter h := by
  unfold cnt
  rw [List.find?_cons]
  by_cases hh : h = h₀
  · have hb : ((h₀, c₀).1 == h) = true := by
      subst hh
      simp
    rw [hb, if_pos hh]
    rfl
  · have hb : ((h₀, c₀).1 == h) = false := by
      simp only [beq_eq_false_iff_ne, ne_eq]
      intro hcontra
      exact hh (hcontra.symm)
    rw [hb, if_neg hh]

/-- Position-wise description of the assigned IDs under any counter state:
the occurrence of the item at position `i` is its counter bucket plus the
number of earlier same-hash items plus one. -/
theorem assignIdsAux_getElem? (rest : List ScanItem) :
    ∀ (counter : List (String × Nat)) (i : Nat),
      (assignIdsAux counter rest)[i]? = (rest[i]?).map (fun it =>
        (mkId it.metadata.tagName (generateSemanticHash it.metadata)
          (cnt counter (generateSemanticHash it.metadata)
            + countSameH (rest.take i) (generateSemanticHash it.metadata) + 1), it)) := by
  induction rest with
  | nil => intro counter i; simp [assignIdsAux]
  | cons it rest ih =>
    intro counter i
    cases i with
    | zero =>
      simp [assignIdsAux, countSameH]
    | succ i =>
      simp only [assignIdsAux, List.getElem?_cons_succ, List.take_succ_cons]
      rw [ih]
      cases hg : rest[i]? with
      | none => rfl
      | some it' =>
        simp only [Option.map_some', Option.some.injEq, Prod.mk.injEq, and_true]
        congr 1
        rw [cnt_cons]
        have hcount : countSameH (it :: rest.take i) (generateSemanticHash it'.metadata)
            = countSameH (rest.take i) (generateSemanticHash it'.metadata)
              + (if generateSemanticHash it.metadata == generateSemanticHash it'.metadata
                  then 1 else 0) := by
          simp [countSameH, List.countP_cons]
        rw [hcount]
        by_cases hhh : generateSemanticHash it'.metadata = generateSemanticHash it.metadata
        · rw [if_pos hhh, hhh, if_pos (by simp)]
          omega
        · have hbne : ¬ ((generateSemanticHash it.metadata
              == generateSemanticHash it'.metadata) = true) := by
            simp only [beq_iff_eq]
            intro hcontra
            exact hhh hcontra.symm
          rw [if_neg hhh, if_neg hbne]
          omega

end Observer

/-- C3 (amended): every assigned element ID has the form
`<tag>-<hash>-<occurrence>`, where the hash is the FNV-1a style mix of the
seven identity attributes rendered as lowercase hexadecimal without leading
zeros and truncated to at most 8 characters (so it may be shorter than 8),
and same-hash elements receive ascending occurrence indices starting at 1
in scan order. -/
theorem C3_amended_semantic_ids :
    (∀ (items : List ScanItem) (i : Nat),
      (Observer.assignIds items)[i]? = (items[i]?).map (fun it =>
        (it.metadata.tagName ++ "-" ++ Observer.generateSemanticHash it.metadata ++ "-"
            ++ String.mk (Observer.decRep
              (Observer.countSameH (items.take i)
                (Observer.generateSemanticHash it.metadata) + 1)), it))) ∧
    (∀ meta : ElementMetadataInfo,
      (Observer.generateSemanticHash meta).length ≤ 8 ∧
      ∀ c ∈ (Observer.generateSemanticHash meta).data, c ∈ Observer.hexDigits) := by
  constructor
  · intro items i
    have h := Observer.assignIdsAux_getElem? items [] i
    simpa [Observer.assignIds, Observer.cnt, Observer.mkId] using h
  · intro meta
    constructor
    · show ((Observer.hexRep
          (Observer.fnv32 (Observer.joinBar (Observer.semanticParts meta)))).take 8).length ≤ 8
      rw [List.length_take]
      exact Nat.min_le_left _ _
    · intro c hc
      have hc' : c ∈ Observer.hexRep
          (Observer.fnv32 (Observer.joinBar (Observer.semanticParts meta))) :=
        List.mem_of_mem_take (by simpa [Observer.generateSemanticHash] using hc)
      exact Observer.natDigits_chars 16 _ c hc'

/-- Metadata of a plain `<button>Cancel</button>`: no test id, derived role
"button", no input type, no placeholder, text "Cancel". -/
def cancelButtonMeta : ElementMetadataInfo :=
  { xpath := "/html/body/button[1]", tagName := "button", inputType := none,
    description := "Cancel", isScrollable := false, isInViewport := true,
    selectors := { text := some "Cancel", role := some ⟨"button", "Cancel"⟩ },
    attributes := [("role", "button")],
    textContent := "Cancel" }

/-- C3 counterexample: the FNV mix of a plain Cancel button hashes to
0x047f85db, whose JavaScript `toString(16)` drops the leading zero, so the
produced `hash8` is the 7-character string "47f85db" and the element ID is
"button-47f85db-1" — the claim's "8 lowercase hex characters" fails. -/
theorem C3_counterexample :
    Observer.generateSemanticHash cancelButtonMeta = "47f85db" ∧
    (Observer.generateSemanticHash cancelButtonMeta).length = 7 ∧
    ¬ ((Observer.generateSemanticHash cancelButtonMeta).length = 8) ∧
    Observer.assignIds [⟨cancelButtonMeta, 1⟩]
      = [("button-47f85db-1", ⟨cancelButtonMeta, 1⟩)] := by
  refine ⟨by decide, by decide, by decide, by decide⟩

/-- Witness for C3 (amended) at a one-element scan: the position formula, a
concrete lowercase-hex digit membership, and the length bound. -/
theorem C3_amended_semantic_ids_witness :
    ((Observer.assignIds [⟨cancelButtonMeta, 1⟩])[0]? =
      (([(⟨cancelButtonMeta, 1⟩ : ScanItem)])[0]?).map (fun it =>
        (it.metadata.tagName ++ "-" ++ Observer.generateSemanticHash it.metadata ++ "-"
            ++ String.mk (Observer.decRep
              (Observer.countSameH (([⟨cancelButtonMeta, 1⟩] : List ScanItem).take 0)
                (Observer.generateSemanticHash it.metadata) + 1)), it))) ∧
    ('4' ∈ (Observer.generateSemanticHash cancelButtonMeta).data ∧
      '4' ∈ Observer.hexDigits) ∧
    (Observer.generateSemanticHash cancelButtonMeta).length ≤ 8 := by
  refine ⟨C3_amended_semantic_ids.1 [⟨cancelButtonMeta, 1⟩] 0,
    ⟨by decide, (C3_amended_semantic_ids.2 cancelButtonMeta).2 '4' (by decide)⟩,
    (C3_amended_semantic_ids.2 cancelButtonMeta).1⟩

/-! ## Observer: catalog update, coverage and distinctness (claim C7)

Embedding of the map maintenance in `Observer.captureState`: each assigned
container is stored with `Map.set` (overwriting), the state text renders
exactly the in-viewport IDs, and the stale-cleanup pass deletes every key
not produced by the current scan. -/

namespace Observer

/-- Model of `Map.prototype.set` on an association list (overwrite by key;
insertion order is irrelevant to lookups). -/
def mapSet (m : List (String × ScanItem)) (kv : String × ScanItem) :
    List (String × ScanItem) :=
  kv :: m.filter (fun p => !(p.1 == kv.1))

/-- Model of `Map.prototype.get`. -/
def mapLookup (m : List (String × ScanItem)) (k : String) : Option ScanItem :=
  (m.find? (fun p => p.1 == k)).map Prod.snd

/-- IDs produced by the current scan (`currentScanIds`). -/
def scanIds (items : List ScanItem) : List String :=
  (assignIds items).map Prod.fst

/-- IDs rendered into the state text: exactly the in-viewport containers. -/
def visibleIds (items : List ScanItem) : List String :=
  ((assignIds items).filter (fun p => p.2.metadata.isInViewport)).map Prod.fst

/-- Embedding of the catalog produced by `captureState`: write every
assigned container over the persistent map, then delete stale keys. -/
def captureStateMap (prev : List (String × ScanItem)) (items : List ScanItem) :
    List (String × ScanItem) :=
  ((assignIds items).foldl mapSet prev).filter (fun p => (scanIds items).contains p.1)

/-- Key-directed `find?` ignores filtering that keeps every entry of the
searched key. -/
theorem find?_filter_keep (m : List (String × ScanItem)) (pred : String × ScanItem → Bool)
    (k : String) (hkeep : ∀ p : String × ScanItem, p.1 = k → pred p = true) :
    (m.filter pred).find? (fun p => p.1 == k) = m.find? (fun p => p.1 == k) := by
  induction m with
  | nil => rfl
  | cons q m ih =>
    by_cases hqk : q.1 = k
    · have hfind : (q.1 == k) = true := by simp [hqk]
      simp [List.filter_cons, hkeep q hqk, List.find?_cons, hfind]
    · have hfind : (q.1 == k) = false := by simp [hqk]
      by_cases hp : pred q
      · simp [List.filter_cons, hp, List.find?_cons, hfind, ih]
      · simp [List.filter_cons, hp, List.find?_cons, hfind, ih]

/-- Lookup after one `set`. -/
theorem mapLookup_mapSet (m : List (String × ScanItem)) (kv : String × ScanItem) (k : String) :
    mapLookup (mapSet m kv) k = if k = kv.1 then some kv.2 else mapLookup m k := by
  unfold mapLookup mapSet
  by_cases hk : k = kv.1
  · have hb : (kv.1 == k) = true := by simp [hk]
    simp [List.find?_cons, hb, hk]
  · have hb : (kv.1 == k) = false := by
      simp only [beq_eq_false_iff_ne, ne_eq]
      intro hcontra
      exact hk hcontra.symm
    rw [if_neg hk, List.find?_cons, hb]
    rw [find?_filter_keep m _ k (fun p hp => by
      simp only [Bool.not_eq_true']
      rw [hp]
      exact beq_eq_false_iff_ne.mpr hk)]

/-- A present key survives any further `set`s. -/
theorem mapLookup_isSome_foldl (l : List (String × ScanItem)) :
    ∀ m k, (mapLookup m k).isSome = true →
      (mapLookup (l.foldl mapSet m) k).isSome = true := by
  induction l with
  | nil => intro m k h; exact h
  | cons kv l ih =>
    intro m k h
    refine ih (mapSet m kv) k ?_
    rw [mapLookup_mapSet]
    by_cases hk : k = kv.1
    · rw [if_pos hk]; rfl
    · rw [if_neg hk]; exact h

/-- Every written key is present after the writing fold. -/
theorem mapLookup_foldl_of_mem (l : List (String × ScanItem)) :
    ∀ m k, k ∈ l.map Prod.fst →
      (mapLookup (l.foldl mapSet m) k).isSome = true := by
  induction l with
  | nil => intro m k h; simp at h
  | cons kv l ih =>
    intro m k h
    obtain ⟨p, hpmem, hpe⟩ := List.mem_map.mp h
    rcases List.mem_cons.mp hpmem with h1 | h2
    · refine mapLookup_isSome_foldl l (mapSet m kv) k ?_
      rw [mapLookup_mapSet, if_pos (by rw [← hpe, h1])]
      rfl
    · exact ih (mapSet m kv) k (List.mem_map.mpr ⟨p, h2, hpe⟩)

/-- Length preservation of the ID assignment. -/
theorem assignIdsAux_length :
    ∀ (rest : List ScanItem) (counter : List (String × Nat)),
      (assignIdsAux counter rest).length = rest.length := by
  intro rest
  induction rest with
  | nil => intro counter; rfl
  | cons it rest ih => intro counter; simp [assignIdsAux, ih]

/-- No character of a semantic hash is a dash. -/
theorem generateSemanticHash_ne_dash (meta : ElementMetadataInfo) :
    ∀ c ∈ (generateSemanticHash meta).data, c ≠ '-' := by
  intro c hc
  have hc' : c ∈ (hexRep (fnv32 (joinBar (semanticParts meta)))).take 8 := hc
  exact mem_hexDigits_ne_dash (natDigits_chars 16 _ c (List.mem_of_mem_take hc'))

/-- Strictly more same-hash items in a longer prefix that crosses an
occurrence of the hash. -/
theorem countSameH_take_lt {items : List ScanItem} {i j : Nat} {h : String}
    (hij : i < j) (hi : i < items.length)
    (hh : generateSemanticHash (items[i]).metadata = h) :
    countSameH (items.take i) h < countSameH (items.take j) h := by
  have h1 : countSameH (items.take (i + 1)) h = countSameH (items.take i) h + 1 := by
    rw [countSameH, List.take_succ, List.countP_append, List.getElem?_eq_getElem hi]
    simp [countSameH, List.countP_cons, hh]
  have h2 : countSameH (items.take (i + 1)) h ≤ countSameH (items.take j) h := by
    obtain ⟨t, ht⟩ := List.take_prefix_take_left items (show i + 1 ≤ j by omega)
    rw [countSameH, countSameH, ← ht, List.countP_append]
    omega
  omega

end Observer

/-- C7: in every observation, each element ID rendered into the state text
(exactly the in-viewport IDs) has an entry in the returned element map, and
the IDs assigned to the cataloged elements are pairwise distinct. -/
theorem C7_catalog_coverage_and_distinct_ids (prev : List (String × ScanItem))
    (items : List ScanItem) :
    (∀ id ∈ Observer.visibleIds items,
      (Observer.mapLookup (Observer.captureStateMap prev items) id).isSome = true) ∧
    (Observer.scanIds items).Nodup := by
  constructor
  · intro id hid
    have hscan : id ∈ Observer.scanIds items := by
      unfold Observer.visibleIds at hid
      unfold Observer.scanIds
      obtain ⟨p, hp, hpe⟩ := List.mem_map.mp hid
      exact List.mem_map.mpr ⟨p, (List.mem_filter.mp hp).1, hpe⟩
    have hfilter : Observer.mapLookup (Observer.captureStateMap prev items) id
        = Observer.mapLookup ((Observer.assignIds items).foldl Observer.mapSet prev) id := by
      unfold Observer.captureStateMap Observer.mapLookup
      rw [Observer.find?_filter_keep _ _ _ (fun p hp => by
        rw [hp]
        exact contains_eq_true_iff_mem.mpr hscan)]
    rw [hfilter]
    exact Observer.mapLookup_foldl_of_mem _ prev id hscan
  · rw [List.nodup_iff_injective_getElem]
    intro a b hab
    obtain ⟨i, hi⟩ := a
    obtain ⟨j, hj⟩ := b
    have hleni : (Observer.scanIds items).length = items.length := by
      unfold Observer.scanIds Observer.assignIds
      rw [List.length_map, Observer.assignIdsAux_length]
    have hi' : i < items.length := by rwa [hleni] at hi
    have hj' : j < items.length := by rwa [hleni] at hj
    have hform : ∀ (n : Nat) (hn : n < items.length),
        (Observer.scanIds items)[n]? = some (Observer.mkId (items[n]).metadata.tagName
          (Observer.generateSemanticHash (items[n]).metadata)
          (Observer.countSameH (items.take n)
            (Observer.generateSemanticHash (items[n]).metadata) + 1)) := by
      intro n hn
      unfold Observer.scanIds
      rw [List.getElem?_map, Observer.assignIds, Observer.assignIdsAux_getElem?,
        List.getElem?_eq_getElem hn]
      simp [Observer.cnt]
    have hgi := hform i hi'
    have hgj := hform j hj'
    rw [List.getElem?_eq_getElem hi] at hgi
    rw [List.getElem?_eq_getElem hj] at hgj
    have hab' : (Observer.scanIds items)[i] = (Observer.scanIds items)[j] := hab
    have hids := ((Option.some.inj hgi).symm.trans hab').trans (Option.some.inj hgj)
    obtain ⟨-, hhash, hcount⟩ := Observer.mkId_inj
      (Observer.generateSemanticHash_ne_dash _) (Observer.generateSemanticHash_ne_dash _) hids
    have hcount' : Observer.countSameH (items.take i)
          (Observer.generateSemanticHash (items[i]).metadata)
        = Observer.countSameH (items.take j)
          (Observer.generateSemanticHash (items[j]).metadata) := by omega
    rcases Nat.lt_trichotomy i j with hij | hij | hij
    · exfalso
      have hlt := Observer.countSameH_take_lt hij hi' rfl
      rw [← hhash] at hcount'
      omega
    · exact Fin.ext hij
    · exfalso
      have hlt := Observer.countSameH_take_lt hij hj' rfl
      rw [hhash] at hcount'
      omega

/-- Witness for C7 at a concrete observation over an empty previous map:
the single visible id is found in the catalog and the id list has no
duplicates. -/
theorem C7_catalog_coverage_witness :
    ("button-47f85db-1" ∈ Observer.visibleIds [⟨cancelButtonMeta, 1⟩]) ∧
    (Observer.mapLookup (Observer.captureStateMap [] [⟨cancelButtonMeta, 1⟩])
      "button-47f85db-1").isSome = true ∧
    (Observer.scanIds [⟨cancelButtonMeta, 1⟩]).Nodup := by
  have h := C7_catalog_coverage_and_distinct_ids [] [⟨cancelButtonMeta, 1⟩]
  have hmem : "button-47f85db-1" ∈ Observer.visibleIds [⟨cancelButtonMeta, 1⟩] := by decide
  exact ⟨hmem, h.1 _ hmem, h.2⟩

/-! ## Observer: in-page element extraction and sensitive masking (claim C4)

Embedding of `checkElement` from the in-page scan of `Observer.captureState`
(src/core/observer.ts, semantic-ID variant).  A `PageElem` carries the data
`checkElement` inspects: tag name, `innerText` and `value`, the attribute
map (`getAttribute`), and the style-derived facts (computed-style
visibility, pointer cursor, scrollability, viewport membership) together
with the structural xpath, which do not depend on the input's value. -/

/-- Element data inspected by `checkElement` in the page context. -/
structure PageElem where
  tagName : String
  innerText : String
  value : String
  attrs : List (String × String)
  styleVisible : Bool
  cursorPointer : Bool
  scrollableFlag : Bool
  inViewport : Bool
  xpath : String
deriving DecidableEq, Repr

namespace Observer

/-- Model of `getAttribute` (null for a missing attribute). -/
def getAttr (el : PageElem) (k : String) : Option String :=
  (el.attrs.find? (fun p => p.1 == k)).map Prod.snd

/-- Model of `hasAttribute`. -/
def hasAttr (el : PageElem) (k : String) : Bool :=
  (el.attrs.find? (fun p => p.1 == k)).isSome

/-- ARIA roles accepted as interactable (VALID_ARIA_ROLES). -/
def validAriaRoles : List String :=
  ["button", "checkbox", "combobox", "link", "menuitem", "option", "radio", "slider",
   "spinbutton", "switch", "tab", "textbox", "treeitem", "gridcell", "heading"]

/-- ASCII whitespace of the collapsing regex `\s`. -/
def jsWhitespace (c : Char) : Bool :=
  c == ' ' || c == '\t' || c == '\n' || c == '\r' || c == '\x0b' || c == '\x0c'

/-- Collapse every whitespace run to a single space (`replace(/\s+/g, ' ')`);
the flag records whether the previous character was whitespace. -/
def collapseWsChars : List Char → Bool → List Char
  | [], _ => []
  | c :: rest, prev =>
    if jsWhitespace c then
      if prev then collapseWsChars rest true else ' ' :: collapseWsChars rest true
    else c :: collapseWsChars rest false

/-- Strip leading and trailing whitespace (`trim()`). -/
def trimWsChars (l : List Char) : List Char :=
  ((l.dropWhile (fun c => jsWhitespace c)).reverse.dropWhile (fun c => jsWhitespace c)).reverse

/-- Model of `.replace(/\s+/g, ' ').trim()`. -/
def cleanedText (s : String) : String :=
  String.mk (trimWsChars (collapseWsChars s.data false))

/-- Input types the source masks as sensitive. -/
def sensitiveTypes : List String := ["password", "email", "tel"]

/-- Sensitivity by the `type` attribute (`inputType && [...].includes`). -/
def sensitiveByType : Option String → Bool
  | some t => sensitiveTypes.contains t
  | none => false

/-- Sensitivity by the `autocomplete` attribute: contains "password", equals
"email", or starts with "cc-". -/
def sensitiveByAutocomplete : Option String → Bool
  | some a => a != "" && (strIncludes a "password" || a == "email" || strStartsWith a "cc-")
  | none => false

/-- Embedding of the sensitivity condition of `checkElement`. -/
def isSensitiveInput (el : PageElem) : Bool :=
  strLower el.tagName == "input"
    && (sensitiveByType (getAttr el "type") || sensitiveByAutocomplete (getAttr el "autocomplete"))

/-- Embedding of the text extraction with masking: the raw text is
`innerText || value || ''`, replaced by `[REDACTED]` for sensitive inputs
before it leaves the page context. -/
def maskText (el : PageElem) : String :=
  if isSensitiveInput el then "[REDACTED]"
  else if el.innerText != "" then el.innerText else el.value

/-- JavaScript `a || b` with a nullable left operand. -/
def jsOrStr (a : Option String) (b : String) : String :=
  match a with
  | some s => if s = "" then b else s
  | none => b

/-- Implicit role derivation for elements without a `role` attribute. -/
def derivedRole (tagName : String) (inputType : Option String) (hasHref : Bool) :
    Option String :=
  if tagName == "button" then some "button"
  else if tagName == "a" && hasHref then some "link"
  else if tagName == "input" && inputType == some "checkbox" then some "checkbox"
  else if tagName == "input" && inputType == some "radio" then some "radio"
  else if tagName == "input" then some "textbox"
  else if tagName == "select" then some "combobox"
  else none

/-- `roleAttr || derived` with JavaScript truthiness. -/
def finalRoleOf (el : PageElem) (tagName : String) (inputType : Option String) :
    Option String :=
  match getAttr el "role" with
  | some r =>
    if r = "" then derivedRole tagName inputType (hasAttr el "href") else some r
  | none => derivedRole tagName inputType (hasAttr el "href")

/-- Embedding of `checkElement`: visibility and interactability screens,
masked text extraction, selector candidates, implicit role, identity
attributes, and the produced metadata record. -/
def checkElement (el : PageElem) : Option ElementMetadataInfo :=
  if !el.styleVisible then none
  else
    let tagName := strLower el.tagName
    let roleAttr := getAttr el "role"
    let isScrollable := el.scrollableFlag
    let isInteractive :=
      ["button", "a", "input", "select", "textarea", "details", "summary"].contains tagName
        || validAriaRoles.contains (roleAttr.getD "")
        || getAttr el "contenteditable" == some "true"
        || el.cursorPointer
        || isScrollable
    if !isInteractive then none
    else
      let inputType := getAttr el "type"
      let cleanText := cleanedText (maskText el)
      let ariaLabel := getAttr el "aria-label"
      let placeholder := getAttr el "placeholder"
      let testId := getAttr el "data-testid"
      let title := getAttr el "title"
      let alt := getAttr el "alt"
      let description := jsOrStr ariaLabel (jsOrStr placeholder (jsOrStr title (jsOrStr alt
        (if cleanText = "" then "Unlabeled Element" else cleanText))))
      let finalRole := finalRoleOf el tagName inputType
      let idStr := (getAttr el "id").getD ""
      let classStr := (getAttr el "class").getD ""
      some
        { xpath := el.xpath
          tagName := tagName
          inputType := if optTruthy inputType then inputType else none
          description := description
          isScrollable := isScrollable
          isInViewport := el.inViewport
          selectors :=
            { testId := if optTruthy testId then testId else none
              placeholder := if optTruthy placeholder then placeholder else none
              text := if cleanText ≠ "" ∧ cleanText.length < 50 then some cleanText else none
              label := if optTruthy ariaLabel then ariaLabel else none
              title := if optTruthy title then title else none
              altText := if optTruthy alt then alt else none
              role :=
                match finalRole with
                | some r =>
                  if r ≠ "" ∧ (optTruthy ariaLabel = true ∨ cleanText ≠ "") then
                    some ⟨r, jsOrStr ariaLabel cleanText⟩
                  else none
                | none => none }
          attributes :=
            (if idStr ≠ "" then [("id", idStr)] else [])
              ++ (if classStr ≠ "" then [("class", classStr)] else [])
              ++ (match inputType with
                  | some t => if t ≠ "" then [("type", t)] else []
                  | none => [])
              ++ (match finalRole with
                  | some r => if r ≠ "" then [("role", r)] else []
                  | none => [])
          textContent := strTake cleanText 50 }

end Observer

/-- Sensitivity as claim C4 words it: type among password, email, tel,
credit-card, or autocomplete containing password, email, or cc-. -/
def specSensitiveClaim (el : PageElem) : Prop :=
  (∃ t, Observer.getAttr el "type" = some t ∧ t ∈ ["password", "email", "tel", "credit-card"]) ∨
  (∃ a, Observer.getAttr el "autocomplete" = some a ∧
    (strIncludes a "password" = true ∨ strIncludes a "email" = true ∨
      strIncludes a "cc-" = true))

/-- An `<input type="credit-card">` holding a card number. -/
def creditCardInput : PageElem :=
  { tagName := "input", innerText := "", value := "4111111111111111",
    attrs := [("type", "credit-card")],
    styleVisible := true, cursorPointer := false, scrollableFlag := false,
    inViewport := true, xpath := "/html/body/input[1]" }

/-- C4 counterexample: the claim's sensitivity condition holds for an input
with type "credit-card", yet the source does not mask it — two page states
differing only in that input's value produce different extracted metadata,
so the value surfaces in the state text. -/
theorem C4_counterexample :
    specSensitiveClaim creditCardInput ∧
    Observer.checkElement creditCardInput ≠
      Observer.checkElement { creditCardInput with value := "5500005555555559" } := by
  constructor
  · exact Or.inl ⟨"credit-card", rfl, by decide⟩
  · decide

/-- C4 (amended): for every input element whose type attribute is password,
email, or tel, or whose autocomplete attribute contains "password", equals
"email", or starts with "cc-", the extracted text is replaced with
[REDACTED] inside the page context, so the produced metadata — and hence
the described state text — is independent of the input's value: two page
states differing only in that value yield identical extracted metadata. -/
theorem C4_amended_redaction :
    (∀ (el : PageElem) (v w : String), Observer.isSensitiveInput el = true →
      Observer.checkElement { el with value := v } =
        Observer.checkElement { el with value := w }) ∧
    (∀ el : PageElem, Observer.isSensitiveInput el = true →
      Observer.maskText el = "[REDACTED]") := by
  have hmask : ∀ el : PageElem, Observer.isSensitiveInput el = true →
      Observer.maskText el = "[REDACTED]" := by
    intro el hsens
    unfold Observer.maskText
    rw [hsens]
    simp
  constructor
  · intro el v w hsens
    obtain ⟨tg, it, vl, ats, sv, cp, sf, ivp, xp⟩ := el
    have hsv : Observer.isSensitiveInput ⟨tg, it, v, ats, sv, cp, sf, ivp, xp⟩ = true := hsens
    have hsw : Observer.isSensitiveInput ⟨tg, it, w, ats, sv, cp, sf, ivp, xp⟩ = true := hsens
    have hmv := hmask _ hsv
    have hmw := hmask _ hsw
    show Observer.checkElement ⟨tg, it, v, ats, sv, cp, sf, ivp, xp⟩ =
      Observer.checkElement ⟨tg, it, w, ats, sv, cp, sf, ivp, xp⟩
    unfold Observer.checkElement
    rw [hmv, hmw]
    dsimp only [Observer.getAttr, Observer.hasAttr, Observer.finalRoleOf]
  · exact hmask

/-- A visible `<input type="password" id="pw">`. -/
def passwordInput : PageElem :=
  { tagName := "input", innerText := "", value := "hunter2",
    attrs := [("type", "password"), ("id", "pw")],
    styleVisible := true, cursorPointer := false, scrollableFlag := false,
    inViewport := true, xpath := "/html/body/input[2]" }

/-- Witness for C4 (amended) at a concrete password input: its text is
masked and its metadata is the same for two different stored values. -/
theorem C4_amended_redaction_witness :
    Observer.isSensitiveInput passwordInput = true ∧
    Observer.checkElement { passwordInput with value := "hunter2" } =
      Observer.checkElement { passwordInput with value := "letmein" } ∧
    Observer.maskText passwordInput = "[REDACTED]" := by
  have hs : Observer.isSensitiveInput passwordInput = true := by decide
  exact ⟨hs, C4_amended_redaction.1 passwordInput "hunter2" "letmein" hs,
    C4_amended_redaction.2 passwordInput hs⟩

/-! ## Observer: element-handle release across observations (claim C8)

Handle bookkeeping of `Observer.captureState` / `scanFrame`
(src/core/observer.ts, semantic-ID variant).  Handles are opaque tokens.
`scanFrame` walks the properties of the in-page result: for each entry it
disposes the metadata wrapper and the item wrapper, disposes the raw
element handle only when `asElement()` returned null, and finally disposes
the root result handle.  `captureState` then overwrites map entries and
deletes stale ones without calling `dispose` on any stored element
handle. -/

/-- Wrapper/element handles produced for one scanned property. -/
structure RawScanItem where
  elementHandle : Nat
  itemWrapper : Nat
  metaWrapper : Nat
  isElement : Bool
deriving DecidableEq, Repr

namespace Observer

/-- Handles passed to `dispose` by the property walk of `scanFrame`. -/
def scanItemDisposals (raw : List RawScanItem) (resultHandle : Nat) : List Nat :=
  raw.flatMap (fun r =>
    (if r.isElement then [] else [r.elementHandle]) ++ [r.metaWrapper, r.itemWrapper]) ++
    [resultHandle]

/-- Handles disposed during one whole `captureState` call: exactly the ones
of the scan walk — the map update and the stale-id cleanup delete entries
without disposing their handles. -/
def captureStateDisposed (raw : List RawScanItem) (resultHandle : Nat) : List Nat :=
  scanItemDisposals raw resultHandle

end Observer

/-- C8 evaluation (code bug): a previous observation stores element handle 7
under id "button-47f85db-1"; a next scan that no longer finds the element
deletes the map entry, yet the disposal log of the whole call contains only
the scan's own root handle — handle 7 is never disposed.  In general every
disposed handle is the root handle, a wrapper, or a non-element raw handle
of the current scan, so no handle retained by a previous observation is
ever released. -/
theorem C8_previous_handles_never_disposed :
    Observer.captureStateMap [("button-47f85db-1", ⟨cancelButtonMeta, 7⟩)] [] = [] ∧
    Observer.captureStateDisposed [] 99 = [99] ∧
    ¬ (7 : Nat) ∈ Observer.captureStateDisposed [] 99 ∧
    ∀ (raw : List RawScanItem) (rh : Nat),
      Observer.captureStateDisposed raw rh ⊆
        rh :: raw.flatMap (fun r => [r.itemWrapper, r.metaWrapper] ++
          (if r.isElement then [] else [r.elementHandle])) := by
  refine ⟨by decide, rfl, by decide, ?_⟩
  intro raw rh hnd hmem
  unfold Observer.captureStateDisposed Observer.scanItemDisposals at hmem
  rcases List.mem_append.mp hmem with h1 | h2
  · obtain ⟨r, hr, hin⟩ := List.mem_flatMap.mp h1
    refine List.mem_cons_of_mem _ (List.mem_flatMap.mpr ⟨r, hr, ?_⟩)
    rcases List.mem_append.mp hin with hA | hB
    · by_cases hel : r.isElement
      · rw [if_pos hel] at hA
        simp at hA
      · rw [if_neg hel] at hA
        simp only [List.mem_singleton] at hA
        subst hA
        refine List.mem_append.mpr (Or.inr ?_)
        rw [if_neg hel]
        simp
    · refine List.mem_append.mpr (Or.inl ?_)
      simp only [List.mem_cons, List.mem_singleton, List.not_mem_nil, or_false] at hB ⊢
      tauto
  · simp only [List.mem_singleton] at h2
    subst h2
    exact List.mem_cons_self _ _

end FlashLoop

